import Mathlib

/-!
Shallow embedding of the csvValidator repository (src/streaming_csv_parser.py,
src/app_streamlit.py): the quote-aware CSV record parser used by both paths,
the one-lookahead streaming validator loop, the two delimiter/statistics
analyzers, and the expected-columns resolvers.  Lines of text are modelled as
`List Char` (a physical line keeps its terminator), streams as a list of lines
with a position, rationals stand in for Python floats.
-/

deriving instance DecidableEq for Except

namespace CsvValidator

abbrev Field := List Char
abbrev Row := List Field
abbrev Line := List Char

/-- The characters Python's `str.rstrip('\r\n')` / `lstrip('\r\n')` remove. -/
def pyIsEol (c : Char) : Bool := c = '\n' || c = '\r'

def quoteChar : Char := '"'

/-- Python `s.rstrip('\r\n')`. -/
def rstripEol (l : Line) : Line := (l.reverse.dropWhile pyIsEol).reverse

/-- Python `s.lstrip('\r\n')`. -/
def lstripEol (l : Line) : Line := l.dropWhile pyIsEol

/-- Python `str.isspace` characters relevant to `str.strip()`. -/
def pyIsSpace (c : Char) : Bool :=
  c = ' ' || c = '\t' || c = '\n' || c = '\r' || c = '\x0b' || c = '\x0c'

/-- Python `s.strip() == ""`. -/
def stripIsEmpty (l : Line) : Bool := l.all pyIsSpace

/-- States of CPython's `csv.reader` field parser (non-strict, doublequote,
QUOTE_MINIMAL). -/
inductive PState where
  | startField | inField | quoted | quoteInQuoted

/-- After a record-terminating `'\r'`, CPython's EAT_CRNL state also consumes a
following `'\n'`. -/
def eatEol (c : Char) (rest : List Char) : List Char :=
  if c = '\r' then
    match rest with
    | '\n' :: r => r
    | r => r
  else rest

/-- One record of CPython's `csv.reader` with delimiter `d`, quote `"`,
doubled-quote escaping, non-strict mode; returns the record and the
remaining text.  At a terminator in `startField` with no fields yet we are at
record start, so the record is the empty row (a blank line parses to `[]`). -/
def parseRecAux (d : Char) : PState → List Field → Field → List Char → Row × List Char
  | .startField, fields, _cur, [] =>
      (if fields.isEmpty then [] else fields ++ [[]], [])
  | .startField, fields, cur, c :: rest =>
      if c = quoteChar then parseRecAux d .quoted fields cur rest
      else if c = d then parseRecAux d .startField (fields ++ [[]]) [] rest
      else if pyIsEol c then
        (if fields.isEmpty then [] else fields ++ [[]], eatEol c rest)
      else parseRecAux d .inField fields (cur ++ [c]) rest
  | .inField, fields, cur, [] => (fields ++ [cur], [])
  | .inField, fields, cur, c :: rest =>
      if c = d then parseRecAux d .startField (fields ++ [cur]) [] rest
      else if pyIsEol c then (fields ++ [cur], eatEol c rest)
      else parseRecAux d .inField fields (cur ++ [c]) rest
  | .quoted, fields, cur, [] => (fields ++ [cur], [])
  | .quoted, fields, cur, c :: rest =>
      if c = quoteChar then parseRecAux d .quoteInQuoted fields cur rest
      else parseRecAux d .quoted fields (cur ++ [c]) rest
  | .quoteInQuoted, fields, cur, [] => (fields ++ [cur], [])
  | .quoteInQuoted, fields, cur, c :: rest =>
      if c = quoteChar then parseRecAux d .quoted fields (cur ++ [quoteChar]) rest
      else if c = d then parseRecAux d .startField (fields ++ [cur]) [] rest
      else if pyIsEol c then (fields ++ [cur], eatEol c rest)
      else parseRecAux d .inField fields (cur ++ [c]) rest

/-- `_parse_row` of both loops: `next(csv.reader(StringIO(text)))`, catching
`StopIteration` on empty text (yields `[]`); other exceptions (the `None`
branch) cannot arise in the pure model, so the result is always `some`. -/
def parse_row (d : Char) (text : List Char) : Option Row :=
  if text.isEmpty then some []
  else some (parseRecAux d .startField [] [] text).1

/-- All records of `csv.reader` over a whole sample text; each record strictly
consumes input, so `text.length` steps of fuel always suffice. -/
def parseRecordsAux (d : Char) : Nat → List Char → List Row
  | 0, _ => []
  | _, [] => []
  | fuel + 1, text =>
      let pr := parseRecAux d .startField [] [] text
      pr.1 :: parseRecordsAux d fuel pr.2

def parseRecords (d : Char) (text : List Char) : List Row :=
  parseRecordsAux d text.length text

/-! ## Validation outcomes and the streaming loop -/

inductive Reason where
  | emptyLine : Reason
  | unparsable (expected : Nat) : Reason
  | wrongCols (got expected : Nat) : Reason
deriving DecidableEq

inductive ErrKind where
  | structureError : ErrKind
  | processingError : ErrKind
deriving DecidableEq

structure BadEntry where
  lineNo : Nat
  kind : ErrKind
  reason : Reason
  content : Line
deriving DecidableEq

inductive Outcome where
  | valid (row : Row)
  | splicedValid (row : Row)
  | invalid (lineNo : Nat) (reason : Reason) (raw : Line)
deriving DecidableEq

structure RunResult where
  outcomes : List Outcome
  clean : List Row
  bad : List BadEntry
  badRaw : List Line
  validCount : Nat
  badCount : Nat
  totalCount : Nat
  iterations : Nat
  spliceAttempts : Nat
deriving DecidableEq

def emptyRun : RunResult := ⟨[], [], [], [], 0, 0, 0, 0, 0⟩

/-- Invalid-reason selection shared by both loops: blank stripped content wins,
then unparsable, then wrong column count. -/
def mkReason (expected : Nat) (row : Option Row) (content : Line) : Reason :=
  if stripIsEmpty content then .emptyLine
  else
    match row with
    | none => .unparsable expected
    | some r => .wrongCols r.length expected

/-- `row is not None and len(row) == expected_columns`. -/
def rowIsValid (expected : Nat) : Option Row → Bool
  | some r => r.length == expected
  | none => false

def consValid (row : Row) (t : Nat) (r : RunResult) : RunResult :=
  { r with
    outcomes := .valid row :: r.outcomes
    clean := row :: r.clean
    validCount := r.validCount + 1
    totalCount := r.totalCount + t
    iterations := r.iterations + 1 }

def consSpliced (row : Row) (t : Nat) (r : RunResult) : RunResult :=
  { r with
    outcomes := .splicedValid row :: r.outcomes
    clean := row :: r.clean
    validCount := r.validCount + 1
    totalCount := r.totalCount + t
    iterations := r.iterations + 1
    spliceAttempts := r.spliceAttempts + 1 }

def consInvalid (expected phys : Nat) (row : Option Row) (cur : Line) (t spl : Nat)
    (r : RunResult) : RunResult :=
  let content := rstripEol cur
  let reason := mkReason expected row content
  { r with
    outcomes := .invalid phys reason cur :: r.outcomes
    bad := ⟨phys, .structureError, reason, content⟩ :: r.bad
    badRaw := cur :: r.badRaw
    badCount := r.badCount + 1
    totalCount := r.totalCount + t
    iterations := r.iterations + 1
    spliceAttempts := r.spliceAttempts + spl }

/-- The per-line while-loop shared by `process_csv_stream` (app_streamlit.py,
which additionally tracks `total_count`) and `process_csv_streaming`
(streaming_csv_parser.py).  The one-slot lookahead buffer is represented by the
head of `pend` together with the flag `fromBuffer` (a buffered head was already
counted in `total_count` when first read).  The no-further-line branch
classifies the current line and the loop then terminates at the next (empty)
read. -/
def validatorLoop (d : Char) (expected : Nat) : Nat → List Line → Bool → RunResult
  | _, [], _ => emptyRun
  | phys, cur :: rest, fromBuffer =>
    if cur.isEmpty then emptyRun
    else
      let ft : Nat := if fromBuffer then 0 else 1
      let row := parse_row d cur
      if rowIsValid expected row then
        consValid (row.getD []) ft (validatorLoop d expected (phys + 1) rest false)
      else
        match rest with
        | [] =>
          consInvalid expected phys row cur ft 0 emptyRun
        | next :: rest2 =>
          let crow := parse_row d (rstripEol cur ++ lstripEol next)
          if rowIsValid expected crow then
            consSpliced (crow.getD []) (ft + 1) (validatorLoop d expected (phys + 2) rest2 false)
          else
            consInvalid expected phys row cur (ft + 1) 1
              (validatorLoop d expected (phys + 1) (next :: rest2) true)

def isValidO : Outcome → Bool
  | .valid _ => true
  | _ => false

def isSplicedO : Outcome → Bool
  | .splicedValid _ => true
  | _ => false

def isInvalidO : Outcome → Bool
  | .invalid _ _ _ => true
  | _ => false

def nValid (os : List Outcome) : Nat := os.countP isValidO
def nSpliced (os : List Outcome) : Nat := os.countP isSplicedO
def nInvalid (os : List Outcome) : Nat := os.countP isInvalidO

def invalidRaws (os : List Outcome) : List Line :=
  os.filterMap fun o =>
    match o with
    | .invalid _ _ raw => some raw
    | _ => none

/-! ## Statistics analyzers -/

/-- Distinct values in first-occurrence order, the iteration order of a Python
`Counter` built from the list. -/
def distinctFirst (l : List Nat) : List Nat :=
  l.foldl (fun acc x => if x ∈ acc then acc else acc ++ [x]) []

/-- `max(cnt.items(), key=lambda kv: (kv[1], kv[0]))` over `Counter(data)`:
the `(modal_cols, modal_count)` pair, ties in count broken toward the larger
column count. -/
def modalPair (data : List Nat) : Nat × Nat :=
  (distinctFirst data).foldl
    (fun best v =>
      let c := data.count v
      if best.2 < c ∨ (best.2 = c ∧ best.1 < v) then (v, c) else best)
    (0, 0)

/-- `max(cnt, key=cnt.get)`: modal value by count only, ties kept at the first
maximal key in first-occurrence order (used by the fallback paths). -/
def modalKeyOnly (data : List Nat) : Nat :=
  match distinctFirst data with
  | [] => 0
  | k :: ks => ks.foldl (fun b v => if data.count b < data.count v then v else b) k

/-- `sum(line.count(d) for line in lines) / max(1, len(lines))`: mean per-line
occurrence count of a candidate delimiter. -/
def freqOf (d : Char) (lines : List Line) : ℚ :=
  mkRat ((lines.map (fun l => l.count d)).sum : Int) (max 1 lines.length)

/-- `max(freq_counts.items(), key=lambda kv: kv[1])[0]`: the first candidate of
maximal mean frequency (Python `max` keeps the first maximal item). -/
def bestFreq (cands : List Char) (lines : List Line) : Char :=
  match cands with
  | [] => ','
  | c :: cs => cs.foldl (fun b d => if freqOf b lines < freqOf d lines then d else b) c

/-- Ordered, de-duplicated candidate list: provided delimiter, then the sniffed
one, then the base set `[',', ';', '\t', '|']`. -/
def buildCandidates (provided : Option Char) (sniffed : Option Char) : List Char :=
  let c0 : List Char :=
    match provided with
    | some p => [p]
    | none => []
  let c1 : List Char :=
    match sniffed with
    | some s => if s ∈ c0 then c0 else c0 ++ [s]
    | none => c0
  [',', ';', '\t', '|'].foldl (fun acc d => if d ∈ acc then acc else acc ++ [d]) c1

/-- Strict lexicographic order on ranking triples, Python tuple `<`. -/
def rankLex (a b : ℚ × Nat × Nat) : Prop :=
  a.1 < b.1 ∨ (a.1 = b.1 ∧ (a.2.1 < b.2.1 ∨ (a.2.1 = b.2.1 ∧ a.2.2 < b.2.2)))

instance (a b : ℚ × Nat × Nat) : Decidable (rankLex a b) := by
  unfold rankLex; infer_instance

/-- The `best` tuple of `analyze_csv_stats_stream`:
`(score, delimiter, header_cols, modal_cols, total_rows, modal_count)`. -/
structure CandStat where
  score : ℚ
  delim : Char
  headerCols : Nat
  modalCols : Nat
  totalRows : Nat
  modalCount : Nat
deriving DecidableEq

/-- Per-candidate statistics of `analyze_csv_stats_stream` (app_streamlit.py):
parse the whole joined sample, `header_cols` from the first record, modal
column count over the remaining records, `score = modal_count /
max(1, data_row_count)` or `1.0` with no data rows; `none` when the sample
yields no records (`if not lengths: continue`). -/
def candStat (d : Char) (sample : List Char) : Option CandStat :=
  match (parseRecords d sample).map List.length with
  | [] => none
  | h :: data =>
    if data ≠ [] then
      let mp := modalPair data
      some ⟨mkRat (mp.2 : Int) (max 1 data.length), d, h, mp.1, data.length + 1, mp.2⟩
    else some ⟨1, d, h, h, 1, 0⟩

def rankOf (c : CandStat) : ℚ × Nat × Nat := (c.score, c.modalCount, c.modalCols)

/-- One step of the candidate fold of `analyze_csv_stats_stream`: keep `best`,
replacing it only when the new rank `(score, modal_count, modal_cols)` is
strictly greater (`rank > (best[0], best[5], best[3])`). -/
def selectStep (sample : List Char) (best : Option CandStat) (d : Char) : Option CandStat :=
  match candStat d sample with
  | none => best
  | some c =>
    match best with
    | none => some c
    | some b => if rankLex (rankOf b) (rankOf c) then some c else best

def selectBest (cands : List Char) (sample : List Char) : Option CandStat :=
  cands.foldl (selectStep sample) none

inductive FatalError where
  | emptyInput : FatalError
  | structureMismatch (headerCols modalCols : Nat) : FatalError
deriving DecidableEq

/-- Core of `analyze_csv_stats_stream` after the sample has been read: ranking,
the no-parse fallback (provided delimiter or `','`), and the degenerate
`modal_cols == 1` frequency fallback.  Returns
`(delimiter, header_cols, modal_cols, total_rows)`. -/
def analyzeCoreStream (cands : List Char) (lines : List Line) (provided : Option Char) :
    Except FatalError (Char × Nat × Nat × Nat) :=
  let sample := lines.flatten
  match selectBest cands sample with
  | none =>
    let d := provided.getD ','
    match (parseRecords d sample).map List.length with
    | [] => .error .emptyInput
    | h :: data =>
      if data ≠ [] then .ok (d, h, modalKeyOnly data, data.length + 1)
      else .ok (d, h, h, 1)
  | some b =>
    if b.modalCols = 1 ∧ cands ≠ [] then
      let bd := bestFreq cands lines
      match (parseRecords bd sample).map List.length with
      | [] => .ok (b.delim, b.headerCols, b.modalCols, b.totalRows)
      | h :: data =>
        if data ≠ [] then .ok (bd, h, modalKeyOnly data, data.length + 1)
        else .ok (bd, h, h, 1)
    else .ok (b.delim, b.headerCols, b.modalCols, b.totalRows)

/-- A seekable decoded text stream: the file's physical lines and the current
line position (`tell`/`seek` at line granularity, which is how the analyzer
uses them). -/
structure TextStream where
  lines : List Line
  pos : Nat
deriving DecidableEq

/-- `readline` up to `n` times from the current position. -/
def readLines (s : TextStream) (n : Nat) : List Line × TextStream :=
  let taken := (s.lines.drop s.pos).take n
  (taken, ⟨s.lines, s.pos + taken.length⟩)

/-- `analyze_csv_stats_stream` (app_streamlit.py): records `pos = tell()`,
reads up to `maxLines` lines, analyzes, and in the `finally` block seeks back
to `pos`.  The csv sniffer is an external black box, passed in as `sniff`. -/
def analyze_csv_stats_stream (sniff : List Line → Option Char) (maxLines : Nat)
    (provided : Option Char) (s : TextStream) :
    Except FatalError (Char × Nat × Nat × Nat) × TextStream :=
  let pos0 := s.pos
  let rd := readLines s maxLines
  let res :=
    if rd.1.isEmpty then .error .emptyInput
    else analyzeCoreStream (buildCandidates provided (sniff rd.1)) rd.1 provided
  (res, ⟨rd.2.lines, pos0⟩)

structure Output where
  clean : List Row
  bad : List BadEntry
  badRaw : List Line
  validCount : Nat
  badCount : Nat
  totalCount : Nat
deriving DecidableEq

/-- `process_csv_stream` (app_streamlit.py): analyze the first 10000 lines,
fail fast with a structure-mismatch error when the header column count differs
from the modal one, otherwise rewind and classify every line after the header
with `expected_columns = len(header)`.  Reading the header record via
`next(reader)` is modelled as parsing the first physical line (the code mixes
`csv.reader` with `readline`, which is only coherent for a single-line
header). -/
def process_csv_stream (sniff : List Line → Option Char) (provided : Option Char)
    (lines : List Line) : Except FatalError Output :=
  match (analyze_csv_stats_stream sniff 10000 provided ⟨lines, 0⟩).1 with
  | .error e => .error e
  | .ok (d, hcols, mcols, _totalRows) =>
    if hcols ≠ mcols then .error (.structureMismatch hcols mcols)
    else
      match lines with
      | [] => .ok ⟨[], [], [], 0, 0, 0⟩
      | l1 :: rest =>
        let header := (parse_row d l1).getD []
        let r := validatorLoop d header.length 2 rest false
        .ok ⟨header :: r.clean, r.bad, r.badRaw, r.validCount, r.badCount, r.totalCount + 1⟩

/-! ## CLI analyzer (`streaming_csv_parser.py`) -/

/-- A `results` tuple of `analyze_csv_stats`:
`(modal_share, modal_cols, modal_count, delim, header_cols, total_rows)`. -/
structure CliStat where
  share : ℚ
  modalCols : Nat
  modalCount : Nat
  delim : Char
  headerCols : Nat
  totalRows : Nat
deriving DecidableEq

def cliCandStat (d : Char) (sample : List Char) : Option CliStat :=
  match (parseRecords d sample).map List.length with
  | [] => none
  | h :: data =>
    if data ≠ [] then
      let mp := modalPair data
      some ⟨mkRat (mp.2 : Int) (max 1 data.length), mp.1, mp.2, d, h, data.length + 1⟩
    else some ⟨1, h, 0, d, h, 1⟩

def cliResults (cands : List Char) (sample : List Char) : List CliStat :=
  cands.filterMap fun d => cliCandStat d sample

/-- `if max_cols > 1: filtered = [r for r in results if r[1] > 1]`. -/
def cliFiltered (results : List CliStat) : List CliStat :=
  let maxCols := (results.map CliStat.modalCols).foldl max 0
  if maxCols > 1 then results.filter (fun r => r.modalCols > 1) else results

def cliKey (r : CliStat) : ℚ × Nat × Nat := (r.share, r.modalCols, r.modalCount)

/-- `filtered.sort(key=lambda r: (r[0], r[1], r[2]), reverse=True); best =
filtered[0]`: stable descending sort by `(share, modal_cols, modal_count)`,
then the first element. -/
def cliSelect (cands : List Char) (sample : List Char) : Option CliStat :=
  ((cliFiltered (cliResults cands sample)).mergeSort
    (fun a b => decide (¬ rankLex (cliKey a) (cliKey b)))).head?

/-- Recomputation for the best-by-frequency delimiter when the chosen candidate
still has `modal_cols == 1` (streaming_csv_parser.py lines 209-226). -/
def cliRecompute (bd : Char) (sample : List Char) : CliStat :=
  let lengths := (parseRecords bd sample).map List.length
  let h := lengths.head?.getD 1
  let data := lengths.tail
  if data ≠ [] then
    let mp := modalPair data
    ⟨mkRat (mp.2 : Int) (max 1 data.length), mp.1, mp.2, bd, h, lengths.length⟩
  else ⟨1, h, 0, bd, h, lengths.length⟩

/-- The `not results` fallback (streaming_csv_parser.py lines 155-187): pick
the delimiter with the highest mean per-line frequency and return conservative
estimates; `lengths = [1]` when even that parse yields nothing. -/
def cliNoResults (cands : List Char) (lines : List Line) (sample : List Char) :
    Char × Nat × Nat × Nat × ℚ :=
  let bd := if cands.isEmpty then ',' else bestFreq cands lines
  let lengths0 := (parseRecords bd sample).map List.length
  let lengths := if lengths0.isEmpty then [1] else lengths0
  let h := lengths.head?.getD 1
  let data := lengths.tail
  if data ≠ [] then
    let mp := modalPair data
    (bd, h, mp.1, lengths.length, mkRat (mp.2 : Int) (max 1 data.length))
  else (bd, h, h, lengths.length, 1)

/-- `analyze_csv_stats` (streaming_csv_parser.py): the CLI analyzer over the
first `max_lines` lines.  Returns
`(delimiter, header_cols, modal_cols, total_rows, modal_share)`. -/
def analyze_csv_stats (sniff : List Line → Option Char) (provided : Option Char)
    (lines : List Line) : Except FatalError (Char × Nat × Nat × Nat × ℚ) :=
  if lines.isEmpty then .error .emptyInput
  else
    let cands := buildCandidates provided (sniff lines)
    let sample := lines.flatten
    if (cliResults cands sample).isEmpty then .ok (cliNoResults cands lines sample)
    else
      match cliSelect cands sample with
      | none => .error .emptyInput
      | some best =>
        let b2 :=
          if best.modalCols = 1 ∧ cands ≠ [] then cliRecompute (bestFreq cands lines) sample
          else best
        .ok (b2.delim, b2.headerCols, b2.modalCols, b2.totalRows, b2.share)

/-- The 90% rule of `main` (streaming_csv_parser.py lines 420-425): expected
columns and whether the divergence warning is logged. -/
def resolve_expected_columns (headerCols modalCols : Nat) (modalShare : ℚ) : Nat × Bool :=
  (if modalShare ≥ mkRat 9 10 then modalCols else headerCols,
   decide (headerCols ≠ modalCols) && decide (modalShare < mkRat 9 10))

structure CliRunSummary where
  expected : Nat
  warned : Bool
  validCount : Nat
  badCount : Nat
deriving DecidableEq

/-- `main` of streaming_csv_parser.py after encoding detection: statistics,
the 90% rule, then `process_csv_streaming` with the resolved
`expected_columns`.  The empty-`lines` case never reaches processing because
the analyzer already fails. -/
def cliMain (sniff : List Line → Option Char) (provided : Option Char)
    (lines : List Line) : Except FatalError CliRunSummary :=
  match analyze_csv_stats sniff provided lines with
  | .error e => .error e
  | .ok (d, h, m, _t, share) =>
    let rw := resolve_expected_columns h m share
    match lines with
    | [] => .error .emptyInput
    | l1 :: rest =>
      let _header := (parse_row d l1).getD []
      let r := validatorLoop d rw.1 2 rest false
      .ok ⟨rw.1, rw.2, r.validCount, r.badCount⟩

/-! ## Lemmas about the validator loop -/

theorem validatorLoop_counts (d : Char) (e : Nat) :
    ∀ (phys : Nat) (lines : List Line) (fb : Bool), (∀ l ∈ lines, l ≠ []) →
      nValid (validatorLoop d e phys lines fb).outcomes
          + 2 * nSpliced (validatorLoop d e phys lines fb).outcomes
          + nInvalid (validatorLoop d e phys lines fb).outcomes = lines.length
        ∧ (validatorLoop d e phys lines fb).validCount
            = nValid (validatorLoop d e phys lines fb).outcomes
              + nSpliced (validatorLoop d e phys lines fb).outcomes
        ∧ (validatorLoop d e phys lines fb).badCount
            = nInvalid (validatorLoop d e phys lines fb).outcomes
        ∧ (validatorLoop d e phys lines fb).totalCount
            = lines.length - (if fb then 1 else 0) := by
  intro phys lines fb
  induction phys, lines, fb using validatorLoop.induct d e with
  | case1 phys fb =>
    intro _
    simp [validatorLoop, emptyRun, nValid, nSpliced, nInvalid]
  | case2 phys cur rest fb hcur =>
    intro h
    exact absurd (List.isEmpty_iff.mp hcur) (h cur (List.mem_cons_self cur rest))
  | case3 phys cur rest fb hcur row hrow ih =>
    intro h
    have ihr := ih fun l hl => h l (List.mem_cons_of_mem cur hl)
    rw [validatorLoop, if_neg hcur]
    simp only [hrow, if_pos, consValid]
    cases fb <;>
      simp_all [nValid, nSpliced, nInvalid, List.countP_cons, isValidO, isSplicedO, isInvalidO] <;>
      omega
  | case4 phys cur fb hcur row hrow =>
    intro _
    rw [validatorLoop, if_neg hcur]
    simp only [hrow, if_neg, consInvalid, emptyRun]
    cases fb <;>
      simp_all [nValid, nSpliced, nInvalid, List.countP_cons, isValidO, isSplicedO, isInvalidO]
  | case5 phys cur fb hcur row hrow next rest2 crow hcrow ih =>
    intro h
    have ihr := ih fun l hl => h l (List.mem_cons_of_mem cur (List.mem_cons_of_mem next hl))
    rw [validatorLoop, if_neg hcur]
    simp only [hrow, hcrow, if_neg, if_pos, consSpliced]
    cases fb <;>
      simp_all [nValid, nSpliced, nInvalid, List.countP_cons, isValidO, isSplicedO, isInvalidO] <;>
      omega
  | case6 phys cur fb hcur row hrow next rest2 crow hcrow ih =>
    intro h
    have ihr := ih fun l hl => h l (List.mem_cons_of_mem cur hl)
    rw [validatorLoop, if_neg hcur]
    simp only [hrow, hcrow, if_neg, consInvalid]
    cases fb <;>
      simp_all [nValid, nSpliced, nInvalid, List.countP_cons, isValidO, isSplicedO, isInvalidO] <;>
      omega

theorem validatorLoop_badRaw (d : Char) (e : Nat) :
    ∀ (phys : Nat) (lines : List Line) (fb : Bool),
      (validatorLoop d e phys lines fb).badRaw
          = invalidRaws (validatorLoop d e phys lines fb).outcomes
        ∧ ∀ x ∈ (validatorLoop d e phys lines fb).badRaw, x ∈ lines := by
  intro phys lines fb
  induction phys, lines, fb using validatorLoop.induct d e with
  | case1 phys fb => simp [validatorLoop, emptyRun, invalidRaws]
  | case2 phys cur rest fb hcur =>
    rw [validatorLoop, if_pos hcur]; simp [emptyRun, invalidRaws]
  | case3 phys cur rest fb hcur row hrow ih =>
    rw [validatorLoop, if_neg hcur]
    simp only [hrow, if_pos, consValid]
    refine ⟨by simp [invalidRaws, ih.1], fun x hx => ?_⟩
    exact List.mem_cons_of_mem cur (ih.2 x hx)
  | case4 phys cur fb hcur row hrow =>
    rw [validatorLoop, if_neg hcur]
    simp only [hrow, if_neg, consInvalid, emptyRun]
    simp [invalidRaws]
  | case5 phys cur fb hcur row hrow next rest2 crow hcrow ih =>
    rw [validatorLoop, if_neg hcur]
    simp only [hrow, hcrow, if_neg, if_pos, consSpliced]
    refine ⟨by simp [invalidRaws, ih.1], fun x hx => ?_⟩
    exact List.mem_cons_of_mem cur (List.mem_cons_of_mem next (ih.2 x hx))
  | case6 phys cur fb hcur row hrow next rest2 crow hcrow ih =>
    rw [validatorLoop, if_neg hcur]
    simp only [hrow, hcrow, if_neg, consInvalid]
    constructor
    · simp [invalidRaws, ih.1]
    · intro x hx
      rcases List.mem_cons.mp hx with h1 | hx2
      · exact h1 ▸ List.mem_cons_self cur (next :: rest2)
      · exact List.mem_cons_of_mem cur (ih.2 x hx2)

theorem validatorLoop_spliceBound (d : Char) (e : Nat) :
    ∀ (phys : Nat) (lines : List Line) (fb : Bool),
      (validatorLoop d e phys lines fb).spliceAttempts
        ≤ (validatorLoop d e phys lines fb).outcomes.length := by
  intro phys lines fb
  induction phys, lines, fb using validatorLoop.induct d e with
  | case1 phys fb => simp [validatorLoop, emptyRun]
  | case2 phys cur rest fb hcur => rw [validatorLoop, if_pos hcur]; simp [emptyRun]
  | case3 phys cur rest fb hcur row hrow ih =>
    rw [validatorLoop, if_neg hcur]
    simp only [hrow, if_pos, consValid]
    simpa using Nat.le_succ_of_le ih
  | case4 phys cur fb hcur row hrow =>
    rw [validatorLoop, if_neg hcur]
    simp only [hrow, if_neg, consInvalid, emptyRun]
    simp
  | case5 phys cur fb hcur row hrow next rest2 crow hcrow ih =>
    rw [validatorLoop, if_neg hcur]
    simp only [hrow, hcrow, if_neg, if_pos, consSpliced]
    simpa using Nat.succ_le_succ ih
  | case6 phys cur fb hcur row hrow next rest2 crow hcrow ih =>
    rw [validatorLoop, if_neg hcur]
    simp only [hrow, hcrow, if_neg, consInvalid]
    simpa using Nat.succ_le_succ ih

theorem validatorLoop_iterBound (d : Char) (e : Nat) :
    ∀ (phys : Nat) (lines : List Line) (fb : Bool),
      (validatorLoop d e phys lines fb).iterations ≤ lines.length := by
  intro phys lines fb
  induction phys, lines, fb using validatorLoop.induct d e with
  | case1 phys fb => simp [validatorLoop, emptyRun]
  | case2 phys cur rest fb hcur => rw [validatorLoop, if_pos hcur]; simp [emptyRun]
  | case3 phys cur rest fb hcur row hrow ih =>
    rw [validatorLoop, if_neg hcur]
    simp only [hrow, if_pos, consValid]
    simp; omega
  | case4 phys cur fb hcur row hrow =>
    rw [validatorLoop, if_neg hcur]
    simp only [hrow, if_neg, consInvalid, emptyRun]
    simp
  | case5 phys cur fb hcur row hrow next rest2 crow hcrow ih =>
    rw [validatorLoop, if_neg hcur]
    simp only [hrow, hcrow, if_neg, if_pos, consSpliced]
    simp; omega
  | case6 phys cur fb hcur row hrow next rest2 crow hcrow ih =>
    rw [validatorLoop, if_neg hcur]
    simp only [hrow, hcrow, if_neg, consInvalid]
    simp at ih ⊢; omega

/-! ## Lemmas about the ranking order and the two selection procedures -/

theorem rankLex_irrefl (a : ℚ × Nat × Nat) : ¬ rankLex a a := by
  simp [rankLex]

theorem rankLex_trans {a b c : ℚ × Nat × Nat} (hab : rankLex a b) (hbc : rankLex b c) :
    rankLex a c := by
  rcases hab with h1 | ⟨he1, h2⟩
  · rcases hbc with g1 | ⟨ge1, _⟩
    · exact Or.inl (lt_trans h1 g1)
    · exact Or.inl (ge1 ▸ h1)
  · rcases hbc with g1 | ⟨ge1, g2⟩
    · exact Or.inl (he1 ▸ g1)
    · exact Or.inr ⟨he1.trans ge1, by omega⟩

theorem rankLex_trichotomy (a b : ℚ × Nat × Nat) : rankLex a b ∨ a = b ∨ rankLex b a := by
  obtain ⟨a1, a2, a3⟩ := a
  obtain ⟨b1, b2, b3⟩ := b
  rcases lt_trichotomy a1 b1 with h1 | h1 | h1
  · exact Or.inl (Or.inl h1)
  · subst h1
    rcases lt_trichotomy a2 b2 with h2 | h2 | h2
    · exact Or.inl (Or.inr ⟨rfl, Or.inl h2⟩)
    · subst h2
      rcases lt_trichotomy a3 b3 with h3 | h3 | h3
      · exact Or.inl (Or.inr ⟨rfl, Or.inr ⟨rfl, h3⟩⟩)
      · subst h3; exact Or.inr (Or.inl rfl)
      · exact Or.inr (Or.inr (Or.inr ⟨rfl, Or.inr ⟨rfl, h3⟩⟩))
    · exact Or.inr (Or.inr (Or.inr ⟨rfl, Or.inl h2⟩))
  · exact Or.inr (Or.inr (Or.inl h1))

theorem rankLex_asymm {a b : ℚ × Nat × Nat} (h : rankLex a b) : ¬ rankLex b a := fun h2 =>
  rankLex_irrefl a (rankLex_trans h h2)

theorem rankLex_ge_trans {a b c : ℚ × Nat × Nat}
    (hab : ¬ rankLex a b) (hbc : ¬ rankLex b c) : ¬ rankLex a c := by
  intro hac
  rcases rankLex_trichotomy a b with h | h | h
  · exact hab h
  · exact hbc (h ▸ hac)
  · exact hbc (rankLex_trans h hac)

/-- Invariant of the `analyze_csv_stats_stream` candidate fold: the final
`best` comes from a candidate or from the accumulator, and nothing seen ranks
strictly above it. -/
theorem selectFold_spec (sample : List Char) :
    ∀ (cs : List Char) (acc : Option CandStat) (b : CandStat),
      List.foldl (selectStep sample) acc cs = some b →
      ((∃ d ∈ cs, candStat d sample = some b) ∨ acc = some b)
        ∧ (∀ d ∈ cs, ∀ c, candStat d sample = some c → ¬ rankLex (rankOf b) (rankOf c))
        ∧ (∀ a, acc = some a → ¬ rankLex (rankOf b) (rankOf a)) := by
  intro cs
  induction cs with
  | nil =>
    intro acc b h
    simp only [List.foldl_nil] at h
    refine ⟨Or.inr h, by simp, ?_⟩
    intro a ha
    rw [ha] at h
    obtain rfl := Option.some.inj h
    exact rankLex_irrefl _
  | cons d cs ih =>
    intro acc b h
    simp only [List.foldl_cons] at h
    obtain ⟨horig, hcs, hacc⟩ := ih (selectStep sample acc d) b h
    have hstepNew : ∀ c, candStat d sample = some c → ¬ rankLex (rankOf b) (rankOf c) := by
      intro c hd
      cases acc with
      | none =>
        exact hacc c (by simp [selectStep, hd])
      | some a =>
        by_cases hif : rankLex (rankOf a) (rankOf c)
        · exact hacc c (by simp [selectStep, hd, hif])
        · have hba := hacc a (by simp [selectStep, hd, hif])
          intro hbc
          rcases rankLex_trichotomy (rankOf a) (rankOf c) with g | g | g
          · exact hif g
          · exact hba (g ▸ hbc)
          · exact hba (rankLex_trans hbc g)
    have hstepAcc : ∀ a, acc = some a → ¬ rankLex (rankOf b) (rankOf a) := by
      intro a ha
      subst ha
      cases hd : candStat d sample with
      | none => exact hacc a (by simp [selectStep, hd])
      | some c =>
        by_cases hif : rankLex (rankOf a) (rankOf c)
        · have hbc := hacc c (by simp [selectStep, hd, hif])
          intro hba
          exact hbc (rankLex_trans hba hif)
        · exact hacc a (by simp [selectStep, hd, hif])
    refine ⟨?_, ?_, hstepAcc⟩
    · rcases horig with ⟨d2, hd2, hst⟩ | hacc2
      · exact Or.inl ⟨d2, List.mem_cons_of_mem d hd2, hst⟩
      · cases hd : candStat d sample with
        | none =>
          rw [selectStep, hd] at hacc2
          exact Or.inr hacc2
        | some c =>
          cases acc with
          | none =>
            rw [selectStep, hd] at hacc2
            obtain rfl := Option.some.inj hacc2
            exact Or.inl ⟨d, List.mem_cons_self d cs, hd⟩
          | some a =>
            by_cases hif : rankLex (rankOf a) (rankOf c)
            · rw [selectStep, hd] at hacc2
              simp only [hif, if_pos] at hacc2
              obtain rfl := Option.some.inj hacc2
              exact Or.inl ⟨d, List.mem_cons_self d cs, hd⟩
            · rw [selectStep, hd] at hacc2
              simp only [hif, if_neg] at hacc2
              exact Or.inr hacc2
    · intro d2 hd2 c hc
      rcases List.mem_cons.mp hd2 with rfl | hmem
      · exact hstepNew c hc
      · exact hcs d2 hmem c hc

/-- The candidate chosen by `analyze_csv_stats_stream`'s fold comes from the
candidate list and is maximal under `(score, modal_count, modal_cols)`. -/
theorem selectBest_spec (cands sample : List Char) (b : CandStat)
    (h : selectBest cands sample = some b) :
    (∃ d ∈ cands, candStat d sample = some b)
      ∧ ∀ d ∈ cands, ∀ c, candStat d sample = some c →
          ¬ rankLex (rankOf b) (rankOf c) := by
  obtain ⟨horig, hdom, _⟩ := selectFold_spec sample cands none b h
  refine ⟨?_, hdom⟩
  rcases horig with h1 | h1
  · exact h1
  · cases h1

/-- The candidate chosen by `analyze_csv_stats`'s sort-then-head comes from the
filtered results and is maximal under `(modal_share, modal_cols, modal_count)`. -/
theorem cliSelect_spec (cands sample : List Char) (b : CliStat)
    (h : cliSelect cands sample = some b) :
    b ∈ cliFiltered (cliResults cands sample)
      ∧ ∀ r ∈ cliFiltered (cliResults cands sample), ¬ rankLex (cliKey b) (cliKey r) := by
  unfold cliSelect at h
  have htrans : ∀ x y z : CliStat,
      decide (¬ rankLex (cliKey x) (cliKey y)) = true →
      decide (¬ rankLex (cliKey y) (cliKey z)) = true →
      decide (¬ rankLex (cliKey x) (cliKey z)) = true := by
    intro x y z hx hy
    simp only [decide_eq_true_eq] at hx hy ⊢
    exact rankLex_ge_trans hx hy
  have htotal : ∀ x y : CliStat,
      (decide (¬ rankLex (cliKey x) (cliKey y))
        || decide (¬ rankLex (cliKey y) (cliKey x))) = true := by
    intro x y
    by_cases hx : rankLex (cliKey x) (cliKey y)
    · simp [rankLex_asymm hx]
    · simp [hx]
  cases hms : (cliFiltered (cliResults cands sample)).mergeSort
      (fun a b => decide (¬ rankLex (cliKey a) (cliKey b))) with
  | nil => rw [hms] at h; cases h
  | cons x t =>
    rw [hms] at h
    obtain rfl : x = b := by
      simpa [List.head?] using h
    have hmem : x ∈ cliFiltered (cliResults cands sample) := by
      have hx : x ∈ (cliFiltered (cliResults cands sample)).mergeSort
          (fun a b => decide (¬ rankLex (cliKey a) (cliKey b))) := by
        rw [hms]; exact List.mem_cons_self x t
      exact List.mem_mergeSort.mp hx
    refine ⟨hmem, ?_⟩
    intro r hr
    have hrms : r ∈ (cliFiltered (cliResults cands sample)).mergeSort
        (fun a b => decide (¬ rankLex (cliKey a) (cliKey b))) :=
      List.mem_mergeSort.mpr hr
    rw [hms] at hrms
    rcases List.mem_cons.mp hrms with rfl | hrt
    · exact rankLex_irrefl _
    · have hpair := List.sorted_mergeSort htrans htotal
        (cliFiltered (cliResults cands sample))
      rw [hms] at hpair
      have := (List.pairwise_cons.mp hpair).1 r hrt
      simpa using this

/-! ## Claims -/

/-- C1: over any run of the validator loop on nonempty physical lines, the
number of standalone-valid outcomes plus twice the spliced-valid outcomes plus
the standalone-invalid outcomes equals the number of data lines read after the
header; `total_count` agrees, and the reported counters are exactly the
outcome counts, so every line is classified exactly once and none is
dropped. -/
theorem c1_line_accounting (d : Char) (expected phys : Nat) (lines : List Line)
    (hne : ∀ l ∈ lines, l ≠ []) :
    nValid (validatorLoop d expected phys lines false).outcomes
        + 2 * nSpliced (validatorLoop d expected phys lines false).outcomes
        + nInvalid (validatorLoop d expected phys lines false).outcomes = lines.length
      ∧ (validatorLoop d expected phys lines false).totalCount = lines.length
      ∧ (validatorLoop d expected phys lines false).validCount
          = nValid (validatorLoop d expected phys lines false).outcomes
            + nSpliced (validatorLoop d expected phys lines false).outcomes
      ∧ (validatorLoop d expected phys lines false).badCount
          = nInvalid (validatorLoop d expected phys lines false).outcomes := by
  obtain ⟨h1, h2, h3, h4⟩ := validatorLoop_counts d expected phys lines false hne
  exact ⟨h1, by simpa using h4, h2, h3⟩

theorem c1_line_accounting_witness :
    (∀ l ∈ (["a|b\n".toList, "c\n".toList, "d|\n".toList] : List Line), l ≠ [])
      ∧ (nValid (validatorLoop '|' 2 2 ["a|b\n".toList, "c\n".toList, "d|\n".toList] false).outcomes
          + 2 * nSpliced (validatorLoop '|' 2 2 ["a|b\n".toList, "c\n".toList, "d|\n".toList] false).outcomes
          + nInvalid (validatorLoop '|' 2 2 ["a|b\n".toList, "c\n".toList, "d|\n".toList] false).outcomes
            = (["a|b\n".toList, "c\n".toList, "d|\n".toList] : List Line).length
        ∧ (validatorLoop '|' 2 2 ["a|b\n".toList, "c\n".toList, "d|\n".toList] false).totalCount
            = (["a|b\n".toList, "c\n".toList, "d|\n".toList] : List Line).length
        ∧ (validatorLoop '|' 2 2 ["a|b\n".toList, "c\n".toList, "d|\n".toList] false).validCount
            = nValid (validatorLoop '|' 2 2 ["a|b\n".toList, "c\n".toList, "d|\n".toList] false).outcomes
              + nSpliced (validatorLoop '|' 2 2 ["a|b\n".toList, "c\n".toList, "d|\n".toList] false).outcomes
        ∧ (validatorLoop '|' 2 2 ["a|b\n".toList, "c\n".toList, "d|\n".toList] false).badCount
            = nInvalid (validatorLoop '|' 2 2 ["a|b\n".toList, "c\n".toList, "d|\n".toList] false).outcomes) :=
  ⟨by decide, c1_line_accounting '|' 2 2 ["a|b\n".toList, "c\n".toList, "d|\n".toList] (by decide)⟩

/-- C2 (amended): the interactive analyzer's candidate fold selects a
candidate maximal under lexicographic descending `(score, modal_count,
modal_cols)`, while the CLI analyzer first discards candidates with
`modal_cols ≤ 1` (when any candidate splits at all) and selects a remaining
candidate maximal under lexicographic descending
`(modal_share, modal_cols, modal_count)`. -/
theorem c2_amended_selection :
    (∀ (cands sample : List Char) (b : CandStat), selectBest cands sample = some b →
        (∃ d ∈ cands, candStat d sample = some b)
          ∧ ∀ d ∈ cands, ∀ c, candStat d sample = some c →
              ¬ rankLex (rankOf b) (rankOf c))
      ∧ ∀ (cands sample : List Char) (b : CliStat), cliSelect cands sample = some b →
          b ∈ cliFiltered (cliResults cands sample)
            ∧ ∀ r ∈ cliFiltered (cliResults cands sample),
                ¬ rankLex (cliKey b) (cliKey r) :=
  ⟨selectBest_spec, cliSelect_spec⟩

unseal List.mergeSort List.merge in
theorem c2_amended_selection_witness :
    (selectBest [','] "a,b\nc,d\n".toList = some ⟨1, ',', 2, 2, 2, 1⟩
      ∧ ((∃ d ∈ [','], candStat d "a,b\nc,d\n".toList = some ⟨1, ',', 2, 2, 2, 1⟩)
          ∧ ∀ d ∈ [','], ∀ c, candStat d "a,b\nc,d\n".toList = some c →
              ¬ rankLex (rankOf ⟨1, ',', 2, 2, 2, 1⟩) (rankOf c)))
      ∧ cliSelect [','] "a,b\nc,d\n".toList = some ⟨1, 2, 1, ',', 2, 2⟩
      ∧ ⟨1, 2, 1, ',', 2, 2⟩ ∈ cliFiltered (cliResults [','] "a,b\nc,d\n".toList)
      ∧ ∀ r ∈ cliFiltered (cliResults [','] "a,b\nc,d\n".toList),
          ¬ rankLex (cliKey ⟨1, 2, 1, ',', 2, 2⟩) (cliKey r) := by
  have h2 := c2_amended_selection.2 [','] "a,b\nc,d\n".toList ⟨1, 2, 1, ',', 2, 2⟩ (by decide)
  exact ⟨⟨by decide, c2_amended_selection.1 [','] "a,b\nc,d\n".toList ⟨1, ',', 2, 2, 2, 1⟩ (by decide)⟩,
    by decide, h2.1, h2.2⟩

unseal List.mergeSort List.merge in
/-- C2 counterexample: on the sample `"a\nb\nc,c\n"` with candidates
`[';', ',']`, the CLI analyzer's selection (`analyze_csv_stats` lines 197-206)
picks the `','` statistics even though the `';'` candidate ranks strictly
higher under the claimed order `(score, modal_count, modal_cols)` — the
`modal_cols > 1` filter discards it. -/
theorem c2_counterexample :
    ∃ s c : CliStat,
      cliSelect [';', ','] "a\nb\nc,c\n".toList = some s
        ∧ s.delim = ','
        ∧ cliCandStat ';' "a\nb\nc,c\n".toList = some c
        ∧ rankLex (s.share, s.modalCount, s.modalCols) (c.share, c.modalCount, c.modalCols) := by
  refine ⟨⟨mkRat 1 2, 2, 1, ',', 1, 3⟩, ⟨1, 1, 2, ';', 1, 3⟩, by decide, rfl, by decide, by decide⟩

/-- C3 (amended): the CLI pipeline resolves `expected_columns` by the 90% rule
and continues processing with it; the fallback warning is emitted exactly when
additionally `header_cols ≠ modal_cols`. -/
theorem c3_amended_resolver (sniff : List Line → Option Char) (provided : Option Char)
    (lines : List Line) (l1 : Line) (rest : List Line) (d : Char) (h m t : Nat) (share : ℚ)
    (ha : analyze_csv_stats sniff provided lines = .ok (d, h, m, t, share))
    (hl : lines = l1 :: rest) :
    cliMain sniff provided lines
      = .ok ⟨if share ≥ mkRat 9 10 then m else h,
             decide (h ≠ m) && decide (share < mkRat 9 10),
             (validatorLoop d (if share ≥ mkRat 9 10 then m else h) 2 rest false).validCount,
             (validatorLoop d (if share ≥ mkRat 9 10 then m else h) 2 rest false).badCount⟩ := by
  subst hl
  unfold cliMain
  rw [ha]
  simp [resolve_expected_columns]

unseal List.mergeSort List.merge in
theorem c3_amended_resolver_witness :
    (analyze_csv_stats (fun _ => none) none
        ["a,b\n".toList, "1,2\n".toList, "3,4\n".toList, "5,6\n".toList,
         "7,8,9\n".toList, "x,y,z\n".toList] = .ok (',', 2, 2, 6, mkRat 3 5))
      ∧ cliMain (fun _ => none) none
          ["a,b\n".toList, "1,2\n".toList, "3,4\n".toList, "5,6\n".toList,
           "7,8,9\n".toList, "x,y,z\n".toList]
        = .ok ⟨if mkRat 3 5 ≥ mkRat 9 10 then 2 else 2,
               decide ((2:Nat) ≠ 2) && decide (mkRat 3 5 < mkRat 9 10),
               (validatorLoop ',' (if mkRat 3 5 ≥ mkRat 9 10 then 2 else 2) 2
                 ["1,2\n".toList, "3,4\n".toList, "5,6\n".toList,
                  "7,8,9\n".toList, "x,y,z\n".toList] false).validCount,
               (validatorLoop ',' (if mkRat 3 5 ≥ mkRat 9 10 then 2 else 2) 2
                 ["1,2\n".toList, "3,4\n".toList, "5,6\n".toList,
                  "7,8,9\n".toList, "x,y,z\n".toList] false).badCount⟩ :=
  ⟨by decide,
    c3_amended_resolver (fun _ => none) none _ "a,b\n".toList
      ["1,2\n".toList, "3,4\n".toList, "5,6\n".toList, "7,8,9\n".toList, "x,y,z\n".toList]
      ',' 2 2 6 (mkRat 3 5) (by decide) rfl⟩

/-- C3 counterexample: `header_cols = 5, modal_cols = 5, modal_share = 1/2` is
a fallback-case input (`modal_share < 0.9`), yet no warning is emitted because
the code additionally requires `header_cols != modal_cols`. -/
theorem c3_counterexample :
    resolve_expected_columns 5 5 (mkRat 1 2) = (5, false) ∧ mkRat 1 2 < mkRat 9 10 := by
  decide

/-- C4: in the interactive path, whenever the analyzed header column count
differs from the modal one, the whole run fails with the structure-mismatch
error before any classification, whatever the sample looks like (the stream
analyzer does not even report a modal share). -/
theorem c4_strict_policy_mismatch (sniff : List Line → Option Char) (provided : Option Char)
    (lines : List Line) (d : Char) (h m t : Nat)
    (ha : (analyze_csv_stats_stream sniff 10000 provided ⟨lines, 0⟩).1 = .ok (d, h, m, t))
    (hne : h ≠ m) :
    process_csv_stream sniff provided lines = .error (.structureMismatch h m) := by
  unfold process_csv_stream
  rw [ha]
  simp [hne]

theorem c4_strict_policy_mismatch_witness :
    ((analyze_csv_stats_stream (fun _ => none) 10000 none
        ⟨["a,b\n".toList, "x\n".toList, "y\n".toList], 0⟩).1 = .ok (',', 2, 1, 3)
      ∧ (2 : Nat) ≠ 1)
      ∧ process_csv_stream (fun _ => none) none ["a,b\n".toList, "x\n".toList, "y\n".toList]
          = .error (.structureMismatch 2 1) :=
  ⟨⟨by decide, by decide⟩,
    c4_strict_policy_mismatch (fun _ => none) none
      ["a,b\n".toList, "x\n".toList, "y\n".toList] ',' 2 1 3 (by decide) (by decide)⟩

/-- C5: the spec's concrete scenario with delimiter `|`, expected 3 columns
and data lines `"1|2|3"`, `"4|5"`, `"6"`: one valid row, a failed splice whose
combination parses to 2 fields, two invalid outcomes with the stated wrong
column counts, and final counters valid=1, bad=2, total=3. -/
theorem c5_concrete_scenario :
    (validatorLoop '|' 3 2 ["1|2|3\n".toList, "4|5\n".toList, "6\n".toList] false).outcomes
        = [Outcome.valid ["1".toList, "2".toList, "3".toList],
           Outcome.invalid 3 (Reason.wrongCols 2 3) "4|5\n".toList,
           Outcome.invalid 4 (Reason.wrongCols 1 3) "6\n".toList]
      ∧ parse_row '|' (rstripEol "4|5\n".toList ++ lstripEol "6\n".toList)
          = some ["4".toList, "56".toList]
      ∧ (validatorLoop '|' 3 2 ["1|2|3\n".toList, "4|5\n".toList, "6\n".toList] false).validCount = 1
      ∧ (validatorLoop '|' 3 2 ["1|2|3\n".toList, "4|5\n".toList, "6\n".toList] false).badCount = 2
      ∧ (validatorLoop '|' 3 2 ["1|2|3\n".toList, "4|5\n".toList, "6\n".toList] false).totalCount = 3 := by
  decide

/-- C6: when the splice of the current line with the lookahead line fails, the
loop classifies only the current line as invalid and continues with the
lookahead line as the buffered current line of the next iteration (evaluated
from scratch); moreover every classified line triggers at most one splice
attempt, so a failed splice never causes a second attempt on the same line. -/
theorem c6_failed_splice_rebuffer :
    (∀ (d : Char) (e phys : Nat) (fb : Bool) (cur next : Line) (rest2 : List Line),
        cur.isEmpty = false →
        rowIsValid e (parse_row d cur) = false →
        rowIsValid e (parse_row d (rstripEol cur ++ lstripEol next)) = false →
        validatorLoop d e phys (cur :: next :: rest2) fb
          = consInvalid e phys (parse_row d cur) cur ((if fb then 0 else 1) + 1) 1
              (validatorLoop d e (phys + 1) (next :: rest2) true))
      ∧ ∀ (d : Char) (e phys : Nat) (lines : List Line) (fb : Bool),
          (validatorLoop d e phys lines fb).spliceAttempts
            ≤ (validatorLoop d e phys lines fb).outcomes.length := by
  constructor
  · intro d e phys fb cur next rest2 hcur hrow hcrow
    rw [validatorLoop]
    rw [if_neg (by simp [hcur])]
    simp only [hrow, hcrow, Bool.false_eq_true, if_false]
  · exact fun d e phys lines fb => validatorLoop_spliceBound d e phys lines fb

theorem c6_failed_splice_rebuffer_witness :
    ("4|5\n".toList.isEmpty = false
      ∧ rowIsValid 3 (parse_row '|' "4|5\n".toList) = false
      ∧ rowIsValid 3 (parse_row '|' (rstripEol "4|5\n".toList ++ lstripEol "6\n".toList)) = false)
      ∧ validatorLoop '|' 3 2 ["4|5\n".toList, "6\n".toList] false
          = consInvalid 3 2 (parse_row '|' "4|5\n".toList) "4|5\n".toList
              ((if false then 0 else 1) + 1) 1
              (validatorLoop '|' 3 3 ["6\n".toList] true) :=
  ⟨⟨by decide, by decide, by decide⟩,
    c6_failed_splice_rebuffer.1 '|' 3 2 false "4|5\n".toList "6\n".toList []
      (by decide) (by decide) (by decide)⟩

/-- C7: with no lines to analyze, both analyzers fail with the empty-input
error, and both full pipelines abort with it before producing any output (the
error result carries no clean/bad/bad-raw content). -/
theorem c7_empty_input :
    (∀ (sniff : List Line → Option Char) (n : Nat) (provided : Option Char) (s : TextStream),
        s.lines.drop s.pos = [] →
        (analyze_csv_stats_stream sniff n provided s).1 = .error .emptyInput)
      ∧ (∀ (sniff : List Line → Option Char) (provided : Option Char),
          process_csv_stream sniff provided [] = .error .emptyInput)
      ∧ (∀ (sniff : List Line → Option Char) (provided : Option Char),
          analyze_csv_stats sniff provided [] = .error .emptyInput)
      ∧ ∀ (sniff : List Line → Option Char) (provided : Option Char),
          cliMain sniff provided [] = .error .emptyInput := by
  refine ⟨?_, ?_, ?_, ?_⟩
  · intro sniff n provided s hdrop
    simp [analyze_csv_stats_stream, readLines, hdrop]
  · intro sniff provided
    simp [process_csv_stream, analyze_csv_stats_stream, readLines]
  · intro sniff provided
    simp [analyze_csv_stats]
  · intro sniff provided
    simp [cliMain, analyze_csv_stats]

theorem c7_empty_input_witness :
    ((⟨["a\n".toList], 1⟩ : TextStream).lines.drop (⟨["a\n".toList], 1⟩ : TextStream).pos = []
      ∧ (analyze_csv_stats_stream (fun _ => none) 5 none ⟨["a\n".toList], 1⟩).1
          = .error .emptyInput)
      ∧ process_csv_stream (fun _ => none) none [] = .error .emptyInput
      ∧ analyze_csv_stats (fun _ => none) none [] = .error .emptyInput
      ∧ cliMain (fun _ => none) none [] = .error .emptyInput :=
  ⟨⟨by decide, c7_empty_input.1 (fun _ => none) 5 none ⟨["a\n".toList], 1⟩ (by decide)⟩,
    c7_empty_input.2.1 (fun _ => none) none,
    c7_empty_input.2.2.1 (fun _ => none) none,
    c7_empty_input.2.2.2 (fun _ => none) none⟩

/-- C8: the statistics probe of the interactive path restores the stream's
position before returning, leaving the stream state exactly as it found it. -/
theorem c8_probe_restores_stream (sniff : List Line → Option Char) (n : Nat)
    (provided : Option Char) (s : TextStream) :
    (analyze_csv_stats_stream sniff n provided s).2 = s := rfl

/-- C9: the bad-raw sink receives exactly the raw texts of the invalid
outcomes, in order — one entry per invalid outcome — and every entry is one
unmodified physical input line (with its terminator), never a concatenation,
also after a failed splice. -/
theorem c9_badraw_verbatim (d : Char) (e phys : Nat) (lines : List Line) (fb : Bool) :
    (validatorLoop d e phys lines fb).badRaw
        = invalidRaws (validatorLoop d e phys lines fb).outcomes
      ∧ ∀ x ∈ (validatorLoop d e phys lines fb).badRaw, x ∈ lines :=
  validatorLoop_badRaw d e phys lines fb

/-- C10: the classification loop terminates: it runs at most one iteration per
physical line, and an empty read with nothing pending ends the run
immediately. -/
theorem c10_termination (d : Char) (e phys : Nat) (lines : List Line) (fb : Bool) :
    (validatorLoop d e phys lines fb).iterations ≤ lines.length
      ∧ validatorLoop d e phys [] fb = emptyRun :=
  ⟨validatorLoop_iterBound d e phys lines fb, rfl⟩

end CsvValidator
